import Mathlib

/-!
Verification of the HSV→RGB conversion core (`src/hsv2rgb.cpp`).

The C code works on 8-bit unsigned integers; we embed it over `Nat`,
inserting `% 256` exactly where an 8-bit store could wrap (and proving
separately that it does not), and using truncated `Nat` subtraction only
where the C value is provably non-negative.
-/

set_option maxHeartbeats 1000000
set_option maxRecDepth 100000

/-- HSV color: three 8-bit unsigned fields (hue, sat, val), each 0–255. -/
structure CHSV where
  hue : Nat
  sat : Nat
  val : Nat
  deriving DecidableEq, Repr

/-- RGB color: three 8-bit unsigned fields (r, g, b), each 0–255. -/
structure CRGB where
  r : Nat
  g : Nat
  b : Nat
  deriving DecidableEq, Repr

/-- Modelled from the spec: `scale8(x, scale)` from the external `lib8tion.h`
(not under `src/`) returns `(x * scale) / 256`, truncating. -/
def scale8 (x s : Nat) : Nat := (x * s) / 256

/-- Modelled from the spec: single-channel "video" scaling from `lib8tion.h`
(not under `src/`): a truncating multiply-scale whose result is zero only if
the input is zero or the scale is zero; a nonzero input with a nonzero scale
is bumped up so it never lands on zero. -/
def scale8_video (x s : Nat) : Nat :=
  if x = 0 then 0 else (x * s) / 256 + (if s = 0 then 0 else 1)

/-- Modelled from the spec: `nscale8x3_video(r, g, b, scale)` from
`lib8tion.h` (not under `src/`) scales the three channels jointly by the same
factor using the video rounding rule. -/
def nscale8x3_video (c : CRGB) (s : Nat) : CRGB :=
  ⟨scale8_video c.r s, scale8_video c.g s, scale8_video c.b s⟩

/-! ### Spectrum converter, portable core (`hsv2rgb_C`, lines 29–113)

`APPLY_DIMMING` is the identity in the source; `HSV_SECTION_3 = 0x40 = 64`.
The local variables of the C function are exposed as top-level definitions. -/

/-- Embeds `brightness_floor = (value * invsat) / 256` with
`invsat = 255 - saturation` (lines 41–42; `APPLY_DIMMING` is the identity). -/
def brightness_floor (hsv : CHSV) : Nat := (hsv.val * (255 - hsv.sat)) / 256

/-- Embeds `color_amplitude = value - brightness_floor` (line 47). -/
def color_amplitude (hsv : CHSV) : Nat := hsv.val - brightness_floor hsv

/-- Embeds `section = hsv.hue / HSV_SECTION_3` (line 51). -/
def hue_section (hsv : CHSV) : Nat := hsv.hue / 64

/-- Embeds `offset = hsv.hue % HSV_SECTION_3` (line 52). -/
def hue_offset (hsv : CHSV) : Nat := hsv.hue % 64

/-- Embeds `rampup_amp_adj = (rampup * color_amplitude) / (256 / 4)` with
`rampup = offset` (lines 54, 87). -/
def rampup_amp_adj (hsv : CHSV) : Nat :=
  (hue_offset hsv * color_amplitude hsv) / (256 / 4)

/-- Embeds `rampdown_amp_adj = (rampdown * color_amplitude) / (256 / 4)` with
`rampdown = (HSV_SECTION_3 - 1) - offset = 63 - offset` (lines 55, 88). -/
def rampdown_amp_adj (hsv : CHSV) : Nat :=
  ((63 - hue_offset hsv) * color_amplitude hsv) / (256 / 4)

/-- Embeds `hsv2rgb_C` (lines 29–113).  The two `uint8_t` sums at lines
91–92 are stores that could wrap, hence the explicit `% 256`; the section
dispatch mirrors `if (section) { if (section == 1) … else … } else …`. -/
def hsv2rgb_C (hsv : CHSV) : CRGB :=
  let rampup_adj_with_floor := (rampup_amp_adj hsv + brightness_floor hsv) % 256
  let rampdown_adj_with_floor := (rampdown_amp_adj hsv + brightness_floor hsv) % 256
  if hue_section hsv ≠ 0 then
    if hue_section hsv = 1 then
      ⟨brightness_floor hsv, rampdown_adj_with_floor, rampup_adj_with_floor⟩
    else
      ⟨rampup_adj_with_floor, brightness_floor hsv, rampdown_adj_with_floor⟩
  else
    ⟨rampdown_adj_with_floor, rampup_adj_with_floor, brightness_floor hsv⟩

/-! ### Spectrum converter, AVR variant (`hsv2rgb_avr`, lines 118–209)

The inline assembly computes with the 8×8→16 `mul` instruction and keeps the
high byte (`r1`), i.e. `(x * y) / 256`; `com` is the 8-bit one's complement,
i.e. `255 - x` for `x ≤ 255`. -/

/-- Embeds `hsv2rgb_avr` (lines 118–209): `brightness_floor` is the high byte
of `value * invsat`; `offset = hue & 63`; `rampup = offset * 4`;
`rampup_amp_adj` is the high byte of `rampup * color_amplitude`; `com rampup`
turns `rampup` into `255 - rampup` before the `rampdown_amp_adj` multiply;
section dispatch tests `hue & 0x80` then `hue & 0x40`. -/
def hsv2rgb_avr (hsv : CHSV) : CRGB :=
  let invsat := 255 - hsv.sat
  let value := hsv.val
  let bfloor := (value * invsat) / 256
  let amp := value - bfloor
  let offset := hsv.hue &&& 63
  let rampup := (offset * 4) % 256
  let rampup_amp_adj_avr := (rampup * amp) / 256
  let rampup_com := 255 - rampup
  let rampdown_amp_adj_avr := (rampup_com * amp) / 256
  let rampup_adj_with_floor := (rampup_amp_adj_avr + bfloor) % 256
  let rampdown_adj_with_floor := (rampdown_amp_adj_avr + bfloor) % 256
  if hsv.hue &&& 128 ≠ 0 then
    ⟨rampup_adj_with_floor, bfloor, rampdown_adj_with_floor⟩
  else
    if hsv.hue &&& 64 ≠ 0 then
      ⟨bfloor, rampdown_adj_with_floor, rampup_adj_with_floor⟩
    else
      ⟨rampdown_adj_with_floor, rampup_adj_with_floor, bfloor⟩

/-- Embeds the single-pixel `hsv2rgb` entry point on non-AVR targets
(lines 17–21): it delegates to `hsv2rgb_C`. -/
def hsv2rgb (hsv : CHSV) : CRGB := hsv2rgb_C hsv

/-- Embeds `hsv2rgb_spectrum` (lines 214–219): scale the hue by
`scale8(hue, 192)` and delegate to `hsv2rgb`. -/
def hsv2rgb_spectrum (hsv : CHSV) : CRGB :=
  hsv2rgb ⟨scale8 hsv.hue 192, hsv.sat, hsv.val⟩

/-! ### Rainbow converter (`hsv2rgb_rainbow`, lines 238–390)

The source is preprocessed with `YELLOWLEVEL = 1` and `GREEN2 = 0`. -/

/-- Embeds the eight-section ladder of `hsv2rgb_rainbow` (lines 246–377):
`offset = hue & 0x1F`, `section = hue / 0x20`,
`third = scale8(offset * 8, 256 / 3)`, then the per-section linear formulas
(with `YELLOWLEVEL = 1`, `GREEN2 = 0`). -/
def rainbow_sections (hue : Nat) : CRGB :=
  let offset := hue % 32
  let sec := hue / 32
  let third := scale8 (offset * 8) (256 / 3)
  if sec < 4 then
    if sec < 2 then
      if sec = 0 then ⟨255 - third, third, 0⟩
      else ⟨171, 85 + third, 0⟩
    else
      if sec = 2 then ⟨171 - third * 2, 171 + third, 0⟩
      else ⟨0, 255 - third, third⟩
  else
    if sec < 6 then
      if sec = 4 then ⟨0, 171 - third * 2, 85 + third * 2⟩
      else ⟨third, 0, 255 - third⟩
    else
      if sec = 6 then ⟨85 + third, 0, 171 - third⟩
      else ⟨171 + third, 0, 85 - third⟩

/-- Embeds `hsv2rgb_rainbow` (lines 238–390): square the value channel with
`scale8(val, val)`; compute the section ladder; scale by `sat` with
`nscale8x3_video`; add the desaturation floor
`desat = scale8(255 - sat, 255 - sat)` to each channel (8-bit stores, hence
`% 256`); finally scale by the squared value with `nscale8x3_video`. -/
def hsv2rgb_rainbow (hsv : CHSV) : CRGB :=
  let val2 := scale8 hsv.val hsv.val
  let c1 := nscale8x3_video (rainbow_sections hsv.hue) hsv.sat
  let desat := scale8 (255 - hsv.sat) (255 - hsv.sat)
  let c2 : CRGB := ⟨(c1.r + desat) % 256, (c1.g + desat) % 256, (c1.b + desat) % 256⟩
  nscale8x3_video c2 val2

/-! ### Array and fill helpers (lines 392–430)

Buffers are embedded as `List`s; the destination is passed in and the updated
buffer returned.  Each C `for (int i = 0; i < n; i++)` loop is a structural
recursion on the remaining iteration count, with `Int.toNat` capturing that a
loop with a non-positive signed bound performs no iterations. -/

/-- Loop body of the array `hsv2rgb` overload (lines 392–396). -/
def hsv2rgb_arr_loop (phsv : List CHSV) (prgb : List CRGB) (i count : Nat) :
    List CRGB :=
  match count with
  | 0 => prgb
  | c + 1 =>
      hsv2rgb_arr_loop phsv (prgb.set i (hsv2rgb (phsv.getD i ⟨0, 0, 0⟩))) (i + 1) c

/-- Embeds the array `hsv2rgb` overload (lines 392–396): converts
`numLeds` pixels index-for-index. -/
def hsv2rgb_arr (phsv : List CHSV) (prgb : List CRGB) (numLeds : Int) :
    List CRGB :=
  hsv2rgb_arr_loop phsv prgb 0 numLeds.toNat

/-- Loop body of the array `hsv2rgb_rainbow` overload (lines 398–402). -/
def hsv2rgb_rainbow_arr_loop (phsv : List CHSV) (prgb : List CRGB)
    (i count : Nat) : List CRGB :=
  match count with
  | 0 => prgb
  | c + 1 =>
      hsv2rgb_rainbow_arr_loop phsv
        (prgb.set i (hsv2rgb_rainbow (phsv.getD i ⟨0, 0, 0⟩))) (i + 1) c

/-- Embeds the array `hsv2rgb_rainbow` overload (lines 398–402). -/
def hsv2rgb_rainbow_arr (phsv : List CHSV) (prgb : List CRGB) (numLeds : Int) :
    List CRGB :=
  hsv2rgb_rainbow_arr_loop phsv prgb 0 numLeds.toNat

/-- Loop body of the array `hsv2rgb_spectrum` overload (lines 404–408). -/
def hsv2rgb_spectrum_arr_loop (phsv : List CHSV) (prgb : List CRGB)
    (i count : Nat) : List CRGB :=
  match count with
  | 0 => prgb
  | c + 1 =>
      hsv2rgb_spectrum_arr_loop phsv
        (prgb.set i (hsv2rgb_spectrum (phsv.getD i ⟨0, 0, 0⟩))) (i + 1) c

/-- Embeds the array `hsv2rgb_spectrum` overload (lines 404–408). -/
def hsv2rgb_spectrum_arr (phsv : List CHSV) (prgb : List CRGB)
    (numLeds : Int) : List CRGB :=
  hsv2rgb_spectrum_arr_loop phsv prgb 0 numLeds.toNat

/-- Loop body of `fill_solid` (lines 413–415). -/
def fill_solid_loop (buf : List CRGB) (color : CRGB) (i count : Nat) :
    List CRGB :=
  match count with
  | 0 => buf
  | c + 1 => fill_solid_loop (buf.set i color) color (i + 1) c

/-- Embeds `fill_solid` (lines 410–416): writes `color` to the first
`numToFill` slots of the destination. -/
def fill_solid (buf : List CRGB) (numToFill : Int) (color : CRGB) :
    List CRGB :=
  fill_solid_loop buf color 0 numToFill.toNat

/-- Loop body of `fill_rainbow` (lines 426–429): write the rainbow conversion
of the current `⟨hue, 255, 255⟩`, then advance the 8-bit hue by `deltahue`. -/
def fill_rainbow_loop (buf : List CRGB) (hue deltahue : Nat) (i count : Nat) :
    List CRGB :=
  match count with
  | 0 => buf
  | c + 1 =>
      fill_rainbow_loop (buf.set i (hsv2rgb_rainbow ⟨hue, 255, 255⟩))
        ((hue + deltahue) % 256) deltahue (i + 1) c

/-- Embeds `fill_rainbow` (lines 418–430): the `uint8_t initialhue` parameter
is received as a byte, hence the initial `% 256`. -/
def fill_rainbow (buf : List CRGB) (numToFill : Int)
    (initialhue deltahue : Nat) : List CRGB :=
  fill_rainbow_loop buf (initialhue % 256) deltahue 0 numToFill.toNat

/-- Number of output channels that are exactly zero. -/
def zeroChannels (c : CRGB) : Nat :=
  (if c.r = 0 then 1 else 0) + (if c.g = 0 then 1 else 0) + (if c.b = 0 then 1 else 0)

/-- The spec's reference spectrum algorithm taken literally: it assigns the
channels only for `section = hue / 64 ∈ {0, 1, 2}` and therefore yields no
triple for hues 192–255, where `hue / 64 = 3`. -/
def spec_spectrum_ref (hue sat val : Nat) : Option CRGB :=
  let bfloor := (val * (255 - sat)) / 256
  let amp := val - bfloor
  let sec := hue / 64
  let offset := hue % 64
  let rampup_adj := (offset * amp) / 64 + bfloor
  let rampdown_adj := ((63 - offset) * amp) / 64 + bfloor
  if sec = 0 then some ⟨rampdown_adj, rampup_adj, bfloor⟩
  else if sec = 1 then some ⟨bfloor, rampdown_adj, rampup_adj⟩
  else if sec = 2 then some ⟨rampup_adj, bfloor, rampdown_adj⟩
  else none

/-- The spec's reference spectrum algorithm, amended so that every section
at or above 2 (hues 128–255) uses the section-2 assignment, matching the
catch-all `else` branch of the code. -/
def spec_spectrum_ref_amended (hue sat val : Nat) : CRGB :=
  let bfloor := (val * (255 - sat)) / 256
  let amp := val - bfloor
  let sec := hue / 64
  let offset := hue % 64
  let rampup_adj := (offset * amp) / 64 + bfloor
  let rampdown_adj := ((63 - offset) * amp) / 64 + bfloor
  if sec = 0 then ⟨rampdown_adj, rampup_adj, bfloor⟩
  else if sec = 1 then ⟨bfloor, rampdown_adj, rampup_adj⟩
  else ⟨rampup_adj, bfloor, rampdown_adj⟩

/-! ### Bounds on the spectrum converter's intermediate values -/

lemma brightness_floor_le (hsv : CHSV) : brightness_floor hsv ≤ hsv.val := by
  unfold brightness_floor
  calc hsv.val * (255 - hsv.sat) / 256 ≤ hsv.val * 256 / 256 :=
        Nat.div_le_div_right (Nat.mul_le_mul_left _ (by omega))
    _ = hsv.val := Nat.mul_div_cancel _ (by norm_num)

lemma rampup_amp_adj_le (hsv : CHSV) :
    rampup_amp_adj hsv ≤ color_amplitude hsv := by
  unfold rampup_amp_adj
  have h64 : (256 : Nat) / 4 = 64 := by norm_num
  rw [h64]
  calc hue_offset hsv * color_amplitude hsv / 64
      ≤ 64 * color_amplitude hsv / 64 :=
        Nat.div_le_div_right
          (Nat.mul_le_mul_right _ (by unfold hue_offset; omega))
    _ = color_amplitude hsv := Nat.mul_div_cancel_left _ (by norm_num)

lemma rampdown_amp_adj_le (hsv : CHSV) :
    rampdown_amp_adj hsv ≤ color_amplitude hsv := by
  unfold rampdown_amp_adj
  have h64 : (256 : Nat) / 4 = 64 := by norm_num
  rw [h64]
  calc (63 - hue_offset hsv) * color_amplitude hsv / 64
      ≤ 64 * color_amplitude hsv / 64 :=
        Nat.div_le_div_right (Nat.mul_le_mul_right _ (by omega))
    _ = color_amplitude hsv := Nat.mul_div_cancel_left _ (by norm_num)

lemma rampup_adj_with_floor_le (hsv : CHSV) :
    rampup_amp_adj hsv + brightness_floor hsv ≤ hsv.val := by
  have h1 := rampup_amp_adj_le hsv
  have h2 := brightness_floor_le hsv
  unfold color_amplitude at h1
  omega

lemma rampdown_adj_with_floor_le (hsv : CHSV) :
    rampdown_amp_adj hsv + brightness_floor hsv ≤ hsv.val := by
  have h1 := rampdown_amp_adj_le hsv
  have h2 := brightness_floor_le hsv
  unfold color_amplitude at h1
  omega

/-! ### Lemmas about the modelled video scaling -/

lemma scale8_video_zero_scale (x : Nat) : scale8_video x 0 = 0 := by
  unfold scale8_video
  split <;> simp

lemma nscale8x3_video_zero_scale (c : CRGB) :
    nscale8x3_video c 0 = ⟨0, 0, 0⟩ := by
  simp [nscale8x3_video, scale8_video_zero_scale]

/-! ### Claim theorems -/

/-- C1 (counterexample): the spec's reference algorithm, taken literally with
its three listed sections, yields no triple at hue 192 (where
`hue / 64 = 3`), so `hsv2rgb_C` does not agree with it there. -/
theorem spec_ref_partial_above_191 :
    spec_spectrum_ref 192 100 200 = none ∧
    spec_spectrum_ref 192 100 200 ≠ some (hsv2rgb_C ⟨192, 100, 200⟩) := by
  decide

/-- C1 (amended): for every byte-valued HSV input, `hsv2rgb_C` computes
exactly the spec's reference algorithm once the reference's section
assignment is amended so that every section at or above 2 (hues 128–255)
uses the section-2 assignment. -/
theorem hsv2rgb_C_matches_amended_ref (h s v : Nat) (hh : h < 256)
    (hs : s < 256) (hv : v < 256) :
    hsv2rgb_C ⟨h, s, v⟩ = spec_spectrum_ref_amended h s v := by
  have h1 : rampup_amp_adj ⟨h, s, v⟩ + brightness_floor ⟨h, s, v⟩ < 256 :=
    lt_of_le_of_lt (rampup_adj_with_floor_le ⟨h, s, v⟩) hv
  have h2 : rampdown_amp_adj ⟨h, s, v⟩ + brightness_floor ⟨h, s, v⟩ < 256 :=
    lt_of_le_of_lt (rampdown_adj_with_floor_le ⟨h, s, v⟩) hv
  simp only [hsv2rgb_C]
  rw [Nat.mod_eq_of_lt h1, Nat.mod_eq_of_lt h2]
  by_cases e0 : h / 64 = 0
  · simp [spec_spectrum_ref_amended, rampup_amp_adj, rampdown_amp_adj,
      brightness_floor, color_amplitude, hue_section, hue_offset, e0]
  · by_cases e1 : h / 64 = 1
    · simp [spec_spectrum_ref_amended, rampup_amp_adj, rampdown_amp_adj,
        brightness_floor, color_amplitude, hue_section, hue_offset, e0, e1]
    · simp [spec_spectrum_ref_amended, rampup_amp_adj, rampdown_amp_adj,
        brightness_floor, color_amplitude, hue_section, hue_offset, e0, e1]

/-- C1 (witness): the amended agreement evaluated at (10, 20, 30). -/
theorem hsv2rgb_C_matches_amended_ref_w :
    hsv2rgb_C ⟨10, 20, 30⟩ = spec_spectrum_ref_amended 10 20 30 :=
  hsv2rgb_C_matches_amended_ref 10 20 30 (by decide) (by decide) (by decide)

/-- C2 (code bug): the portable and AVR spectrum implementations diverge at
(hue 0, sat 255, val 255): the C path computes the rampdown channel as
`((63 - offset) * amp) / 64` while the AVR assembly's one's complement makes
it `((255 - 4 * offset) * amp) / 256`, giving 251 versus 254. -/
theorem spectrum_avr_divergence :
    hsv2rgb_C ⟨0, 255, 255⟩ = ⟨251, 0, 0⟩ ∧
    hsv2rgb_avr ⟨0, 255, 255⟩ = ⟨254, 0, 0⟩ ∧
    hsv2rgb_C ⟨0, 255, 255⟩ ≠ hsv2rgb_avr ⟨0, 255, 255⟩ := by
  decide

/-- C3: with `val = 0` both the spectrum converter and the rainbow converter
output (0, 0, 0) for every hue and saturation. -/
theorem black_at_zero_val (h s : Nat) :
    hsv2rgb_C ⟨h, s, 0⟩ = ⟨0, 0, 0⟩ ∧ hsv2rgb_rainbow ⟨h, s, 0⟩ = ⟨0, 0, 0⟩ := by
  constructor
  · have hbf : brightness_floor ⟨h, s, 0⟩ = 0 := by simp [brightness_floor]
    have hamp : color_amplitude ⟨h, s, 0⟩ = 0 := by simp [color_amplitude, hbf]
    have hru : rampup_amp_adj ⟨h, s, 0⟩ = 0 := by simp [rampup_amp_adj, hamp]
    have hrd : rampdown_amp_adj ⟨h, s, 0⟩ = 0 := by simp [rampdown_amp_adj, hamp]
    simp [hsv2rgb_C, hru, hrd, hbf]
  · simp [hsv2rgb_rainbow, scale8, nscale8x3_video_zero_scale]

/-- C4 (counterexample): with `sat = 0` and `val = 255` the spectrum
converter outputs (254, 254, 254), not r = g = b = val = 255. -/
theorem gray_ramp_claim_cex :
    hsv2rgb_C ⟨0, 0, 255⟩ = ⟨254, 254, 254⟩ ∧
    hsv2rgb_C ⟨0, 0, 255⟩ ≠ ⟨255, 255, 255⟩ := by
  decide

/-- C4 (amended): with `sat = 0` the spectrum converter outputs the gray
triple r = g = b = `(val * 255) / 256`, which is `val - 1` for every
`val ≥ 1` (and 0 for `val = 0`) — a gray ramp one step below the input. -/
theorem gray_ramp_amended (h v : Nat) (hh : h < 256) (hv : v < 256) :
    hsv2rgb_C ⟨h, 0, v⟩ = ⟨v * 255 / 256, v * 255 / 256, v * 255 / 256⟩ ∧
    (1 ≤ v → v * 255 / 256 = v - 1) := by
  have hdm := Nat.div_add_mod (v * 255) 256
  have hml : v * 255 % 256 < 256 := Nat.mod_lt _ (by norm_num)
  have hbf : brightness_floor ⟨h, 0, v⟩ = v * 255 / 256 := by
    simp [brightness_floor]
  have hamp : color_amplitude ⟨h, 0, v⟩ ≤ 1 := by
    simp only [color_amplitude, hbf]
    omega
  have hoff : hue_offset ⟨h, 0, v⟩ ≤ 63 := by
    simp only [hue_offset]
    omega
  have h256 : (256 : Nat) / 4 = 64 := by norm_num
  have hru : rampup_amp_adj ⟨h, 0, v⟩ = 0 := by
    have hb : hue_offset ⟨h, 0, v⟩ * color_amplitude ⟨h, 0, v⟩ ≤ 63 := by
      calc hue_offset ⟨h, 0, v⟩ * color_amplitude ⟨h, 0, v⟩
          ≤ 63 * 1 := Nat.mul_le_mul hoff hamp
        _ = 63 := by norm_num
    unfold rampup_amp_adj
    rw [h256]
    exact Nat.div_eq_of_lt (by omega)
  have hrd : rampdown_amp_adj ⟨h, 0, v⟩ = 0 := by
    have hb : (63 - hue_offset ⟨h, 0, v⟩) * color_amplitude ⟨h, 0, v⟩ ≤ 63 := by
      calc (63 - hue_offset ⟨h, 0, v⟩) * color_amplitude ⟨h, 0, v⟩
          ≤ 63 * 1 := Nat.mul_le_mul (by omega) hamp
        _ = 63 := by norm_num
    unfold rampdown_amp_adj
    rw [h256]
    exact Nat.div_eq_of_lt (by omega)
  have hq : v * 255 / 256 < 256 := by omega
  constructor
  · simp [hsv2rgb_C, hru, hrd, hbf, Nat.mod_eq_of_lt hq]
  · intro hv1
    omega

/-- C4 (witness): the amended gray ramp evaluated at hue 7, val 200. -/
theorem gray_ramp_amended_w :
    hsv2rgb_C ⟨7, 0, 200⟩ = ⟨200 * 255 / 256, 200 * 255 / 256, 200 * 255 / 256⟩ ∧
    200 * 255 / 256 = 199 := by
  have h := gray_ramp_amended 7 200 (by decide) (by decide)
  exact ⟨h.1, h.2 (by decide)⟩

/-- C5 (counterexample): at hue 0 with full saturation and value the spectrum
converter outputs (251, 0, 0) — two channels are zero, not exactly one, and
the red channel is 251, not 255. -/
theorem full_sat_val_claim_cex :
    hsv2rgb_C ⟨0, 255, 255⟩ ≠ ⟨255, 0, 0⟩ ∧
    zeroChannels (hsv2rgb_C ⟨0, 255, 255⟩) = 2 := by
  decide

/-- C5 (amended): with `sat = 255` and `val = 255` the brightness floor is 0
and the floor channel of the hue's section is 0; exactly one channel is zero
when `hue % 64` is strictly between 0 and 63, while at section boundaries
(`hue % 64 ∈ {0, 63}`) a ramp channel vanishes too, giving two zero
channels.  The section-boundary hues map to peaks of 251 (not 255, because
of the truncating `/ 64`): hue 0 → (251, 0, 0), hue 64 → (0, 251, 0),
hue 128 → (0, 0, 251). -/
theorem full_sat_val_amended : ∀ h : Nat, h < 256 →
    brightness_floor ⟨h, 255, 255⟩ = 0 ∧
    (1 ≤ h % 64 → h % 64 ≤ 62 → zeroChannels (hsv2rgb_C ⟨h, 255, 255⟩) = 1) ∧
    ((h % 64 = 0 ∨ h % 64 = 63) → zeroChannels (hsv2rgb_C ⟨h, 255, 255⟩) = 2) ∧
    hsv2rgb_C ⟨0, 255, 255⟩ = ⟨251, 0, 0⟩ ∧
    hsv2rgb_C ⟨64, 255, 255⟩ = ⟨0, 251, 0⟩ ∧
    hsv2rgb_C ⟨128, 255, 255⟩ = ⟨0, 0, 251⟩ := by
  decide

/-- C5 (witness): the amended statement evaluated at hue 33. -/
theorem full_sat_val_amended_w :
    brightness_floor ⟨33, 255, 255⟩ = 0 ∧
    zeroChannels (hsv2rgb_C ⟨33, 255, 255⟩) = 1 := by
  have h := full_sat_val_amended 33 (by decide)
  exact ⟨h.1, h.2.1 (by decide) (by decide)⟩

/-- C6: in `hsv2rgb_C` neither 8-bit sum wraps — both ramp-plus-floor sums
are at most 255 (each scaled ramp is bounded by the color amplitude and
amplitude + floor = val) — and every output channel is at most `val`. -/
theorem spectrum_no_overflow (hsv : CHSV) (hh : hsv.hue < 256)
    (hs : hsv.sat < 256) (hv : hsv.val < 256) :
    rampup_amp_adj hsv + brightness_floor hsv ≤ 255 ∧
    rampdown_amp_adj hsv + brightness_floor hsv ≤ 255 ∧
    (hsv2rgb_C hsv).r ≤ hsv.val ∧ (hsv2rgb_C hsv).g ≤ hsv.val ∧
    (hsv2rgb_C hsv).b ≤ hsv.val := by
  have h1 := rampup_adj_with_floor_le hsv
  have h2 := rampdown_adj_with_floor_le hsv
  have h3 := brightness_floor_le hsv
  have hru : (rampup_amp_adj hsv + brightness_floor hsv) % 256 ≤ hsv.val := by
    rw [Nat.mod_eq_of_lt (by omega)]
    exact h1
  have hrd : (rampdown_amp_adj hsv + brightness_floor hsv) % 256 ≤ hsv.val := by
    rw [Nat.mod_eq_of_lt (by omega)]
    exact h2
  refine ⟨by omega, by omega, ?_, ?_, ?_⟩ <;>
    · simp only [hsv2rgb_C]
      split <;> first
        | exact hru
        | exact hrd
        | exact h3
        | (split <;> first | exact hru | exact hrd | exact h3)

/-- C6 (witness): no-overflow bounds evaluated at (200, 100, 250). -/
theorem spectrum_no_overflow_w :
    rampup_amp_adj ⟨200, 100, 250⟩ + brightness_floor ⟨200, 100, 250⟩ ≤ 255 ∧
    rampdown_amp_adj ⟨200, 100, 250⟩ + brightness_floor ⟨200, 100, 250⟩ ≤ 255 ∧
    (hsv2rgb_C ⟨200, 100, 250⟩).r ≤ (250 : Nat) ∧
    (hsv2rgb_C ⟨200, 100, 250⟩).g ≤ (250 : Nat) ∧
    (hsv2rgb_C ⟨200, 100, 250⟩).b ≤ (250 : Nat) :=
  spectrum_no_overflow ⟨200, 100, 250⟩ (by decide) (by decide) (by decide)

/-! ### Index-wise behaviour of the fill loops -/

lemma fill_solid_loop_getElem (c : CRGB) :
    ∀ (count : Nat) (buf : List CRGB) (i j : Nat),
      (fill_solid_loop buf c i count)[j]? =
        if i ≤ j ∧ j < i + count ∧ j < buf.length then some c else buf[j]? := by
  intro count
  induction count with
  | zero =>
      intro buf i j
      simp only [fill_solid_loop]
      rw [if_neg (by omega)]
  | succ n ih =>
      intro buf i j
      simp only [fill_solid_loop]
      rw [ih (buf.set i c) (i + 1) j]
      by_cases hij : j = i
      · subst hij
        rw [if_neg (by omega)]
        by_cases hlen : j < buf.length
        · rw [List.getElem?_set_self hlen, if_pos ⟨le_refl j, by omega, hlen⟩]
        · rw [List.set_eq_of_length_le (by omega), if_neg (by omega)]
      · rw [List.getElem?_set_ne (Ne.symm hij)]
        simp only [List.length_set]
        by_cases hcond : i + 1 ≤ j ∧ j < i + 1 + n ∧ j < buf.length
        · rw [if_pos hcond, if_pos (by omega)]
        · rw [if_neg hcond, if_neg (by omega)]

lemma fill_rainbow_loop_getElem (dh : Nat) :
    ∀ (count : Nat) (buf : List CRGB) (hue i j : Nat), hue < 256 →
      (fill_rainbow_loop buf hue dh i count)[j]? =
        if i ≤ j ∧ j < i + count ∧ j < buf.length
        then some (hsv2rgb_rainbow ⟨(hue + (j - i) * dh) % 256, 255, 255⟩)
        else buf[j]? := by
  intro count
  induction count with
  | zero =>
      intro buf hue i j hhue
      simp only [fill_rainbow_loop]
      rw [if_neg (by omega)]
  | succ n ih =>
      intro buf hue i j hhue
      simp only [fill_rainbow_loop]
      rw [ih (buf.set i (hsv2rgb_rainbow ⟨hue, 255, 255⟩)) ((hue + dh) % 256)
        (i + 1) j (Nat.mod_lt _ (by norm_num))]
      by_cases hij : j = i
      · subst hij
        rw [if_neg (by omega)]
        by_cases hlen : j < buf.length
        · rw [List.getElem?_set_self hlen, if_pos ⟨le_refl j, by omega, hlen⟩]
          have hz : (hue + (j - j) * dh) % 256 = hue := by
            simp [Nat.mod_eq_of_lt hhue]
          rw [hz]
        · rw [List.set_eq_of_length_le (by omega), if_neg (by omega)]
      · rw [List.getElem?_set_ne (Ne.symm hij)]
        simp only [List.length_set]
        by_cases hcond : i + 1 ≤ j ∧ j < i + 1 + n ∧ j < buf.length
        · rw [if_pos hcond, if_pos (by omega)]
          have hj : j - i = j - (i + 1) + 1 := by omega
          rw [Nat.mod_add_mod, hj]
          congr 3
          ring_nf
        · rw [if_neg hcond, if_neg (by omega)]

/-- C7: `fill_rainbow` writes to destination slot `i` (for `i` below the fill
count and within the buffer) exactly the rainbow conversion of
(hue = `h0 + i·dh mod 256`, sat = 255, val = 255); in particular, filling 4
pixels from hue 0 with delta 64 equals four independent rainbow conversions
at hues 0, 64, 128, 192. -/
theorem fill_rainbow_matches_rainbow (buf : List CRGB) (n : Int)
    (h0 dh i : Nat) (hh0 : h0 < 256) (hi : (i : Int) < n)
    (hlen : i < buf.length) :
    (fill_rainbow buf n h0 dh)[i]? =
      some (hsv2rgb_rainbow ⟨(h0 + i * dh) % 256, 255, 255⟩) ∧
    fill_rainbow [⟨0, 0, 0⟩, ⟨0, 0, 0⟩, ⟨0, 0, 0⟩, ⟨0, 0, 0⟩] 4 0 64 =
      [hsv2rgb_rainbow ⟨0, 255, 255⟩, hsv2rgb_rainbow ⟨64, 255, 255⟩,
       hsv2rgb_rainbow ⟨128, 255, 255⟩, hsv2rgb_rainbow ⟨192, 255, 255⟩] := by
  constructor
  · unfold fill_rainbow
    rw [Nat.mod_eq_of_lt hh0]
    rw [fill_rainbow_loop_getElem dh n.toNat buf h0 0 i hh0]
    rw [if_pos ⟨Nat.zero_le i, by omega, hlen⟩]
    simp
  · decide

/-- C7 (witness): the second pixel of a 2-pixel fill from hue 10, delta 100. -/
theorem fill_rainbow_matches_rainbow_w :
    (fill_rainbow [⟨0, 0, 0⟩, ⟨0, 0, 0⟩] 2 10 100)[1]? =
      some (hsv2rgb_rainbow ⟨(10 + 1 * 100) % 256, 255, 255⟩) :=
  (fill_rainbow_matches_rainbow [⟨0, 0, 0⟩, ⟨0, 0, 0⟩] 2 10 100 1 (by decide)
    (by decide) (by decide)).1

/-- C8: the rainbow converter at hue 0 with full saturation and value
outputs (254, 0, 0): green and blue are exactly 0 and red is within 1 of
255 (the video-scaling rounding keeps it just below full). -/
theorem rainbow_red_at_zero_hue :
    hsv2rgb_rainbow ⟨0, 255, 255⟩ = ⟨254, 0, 0⟩ ∧
    (hsv2rgb_rainbow ⟨0, 255, 255⟩).g = 0 ∧
    (hsv2rgb_rainbow ⟨0, 255, 255⟩).b = 0 ∧
    255 - (hsv2rgb_rainbow ⟨0, 255, 255⟩).r ≤ 1 := by
  decide

/-- C9: for a non-negative fill count, `fill_solid` sets every destination
slot below the count (and within the buffer) to the given color and leaves
every slot at or beyond the count unchanged; with count 0 it — like the
three element-wise array converters and `fill_rainbow` — leaves the buffer
entirely unchanged. -/
theorem fill_solid_spec (buf : List CRGB) (n : Int) (c : CRGB) (i : Nat)
    (src : List CHSV) (h0 dh : Nat) (hn : 0 ≤ n) :
    (i < n.toNat → i < buf.length → (fill_solid buf n c)[i]? = some c) ∧
    (n.toNat ≤ i → (fill_solid buf n c)[i]? = buf[i]?) ∧
    fill_solid buf 0 c = buf ∧
    hsv2rgb_arr src buf 0 = buf ∧
    hsv2rgb_rainbow_arr src buf 0 = buf ∧
    hsv2rgb_spectrum_arr src buf 0 = buf ∧
    fill_rainbow buf 0 h0 dh = buf := by
  refine ⟨?_, ?_, rfl, rfl, rfl, rfl, rfl⟩
  · intro h1 h2
    unfold fill_solid
    rw [fill_solid_loop_getElem c n.toNat buf 0 i,
      if_pos ⟨Nat.zero_le i, by omega, h2⟩]
  · intro h1
    unfold fill_solid
    rw [fill_solid_loop_getElem c n.toNat buf 0 i, if_neg (by omega)]

/-- C9 (witness): a 2-slot buffer filled with count 1 — slot 0 becomes the
color, slot 1 keeps its old value; count 0 leaves a buffer unchanged. -/
theorem fill_solid_spec_w :
    (fill_solid [⟨1, 1, 1⟩, ⟨2, 2, 2⟩] 1 ⟨10, 20, 30⟩)[0]? = some ⟨10, 20, 30⟩ ∧
    (fill_solid [⟨1, 1, 1⟩, ⟨2, 2, 2⟩] 1 ⟨10, 20, 30⟩)[1]? =
      [(⟨1, 1, 1⟩ : CRGB), ⟨2, 2, 2⟩][1]? ∧
    fill_solid [⟨1, 1, 1⟩] 0 ⟨10, 20, 30⟩ = [⟨1, 1, 1⟩] := by
  have h0 := fill_solid_spec [⟨1, 1, 1⟩, ⟨2, 2, 2⟩] 1 ⟨10, 20, 30⟩ 0 [] 0 0 (by decide)
  have h1 := fill_solid_spec [⟨1, 1, 1⟩, ⟨2, 2, 2⟩] 1 ⟨10, 20, 30⟩ 1 [] 0 0 (by decide)
  have h2 := fill_solid_spec [⟨1, 1, 1⟩] 0 ⟨10, 20, 30⟩ 0 [] 0 0 (by decide)
  exact ⟨h0.1 (by decide) (by decide), h1.2.1 (by decide), h2.2.2.1⟩

/-- C10: a negative length argument makes every array helper a no-op: the
destination buffer comes back entirely unchanged, exactly as for length 0. -/
theorem negative_length_noop (buf : List CRGB) (src : List CHSV) (n : Int)
    (c : CRGB) (h0 dh : Nat) (hn : n < 0) :
    fill_solid buf n c = buf ∧
    fill_rainbow buf n h0 dh = buf ∧
    hsv2rgb_arr src buf n = buf ∧
    hsv2rgb_rainbow_arr src buf n = buf ∧
    hsv2rgb_spectrum_arr src buf n = buf := by
  have hz : n.toNat = 0 := by omega
  unfold fill_solid fill_rainbow hsv2rgb_arr hsv2rgb_rainbow_arr
    hsv2rgb_spectrum_arr
  rw [hz]
  exact ⟨rfl, rfl, rfl, rfl, rfl⟩

/-- C10 (witness): every helper applied with length −1 to a 1-pixel buffer
returns it unchanged. -/
theorem negative_length_noop_w :
    fill_solid [⟨1, 2, 3⟩] (-1) ⟨9, 9, 9⟩ = [⟨1, 2, 3⟩] ∧
    fill_rainbow [⟨1, 2, 3⟩] (-1) 0 1 = [⟨1, 2, 3⟩] ∧
    hsv2rgb_arr [⟨4, 5, 6⟩] [⟨1, 2, 3⟩] (-1) = [⟨1, 2, 3⟩] ∧
    hsv2rgb_rainbow_arr [⟨4, 5, 6⟩] [⟨1, 2, 3⟩] (-1) = [⟨1, 2, 3⟩] ∧
    hsv2rgb_spectrum_arr [⟨4, 5, 6⟩] [⟨1, 2, 3⟩] (-1) = [⟨1, 2, 3⟩] :=
  negative_length_noop [⟨1, 2, 3⟩] [⟨4, 5, 6⟩] (-1) ⟨9, 9, 9⟩ 0 1 (by decide)
